import Mathlib

/-!
Shallow embedding of the GovTechSG/image-size-compression core:
`FileHelper.isValidSize`, `FileHelper.resampleImage`, `FileHelper.compressImage`
(src/src/file-helper.ts) and the orchestrator `compress` (src/unnamed/part_000).

Modelling choices:
* A browser `File` is modelled by `JSFile`: name, lastModified, declared media
  type, byte size, plus the intrinsic pixel dimensions and an abstract content
  identifier of the encoded image the bytes hold.
* The browser decode/render/encode primitives (`blobToImage`, canvas
  `drawImage` / `toBlob`) are an abstract `Codec` parameter: `decodeOk`
  says whether the bytes decode to an image (`blobToImage` rejects otherwise),
  and `encSize` / `encContent` give the byte size and content produced by
  `canvas.toBlob` from a source content rendered at given dimensions with a
  given target type and quality.  `toBlob` returns a blob of the requested
  media type (the only type this code ever requests is "image/jpeg", which
  every browser encoder supports); on a canvas with a zero dimension it
  yields `null`, which `new File([null], ...)` turns into the 4-byte text
  "null" with an empty type.
* JavaScript numbers are modelled as ℚ; the canvas `width`/`height` setters
  perform the WebIDL unsigned-long conversion, which truncates toward zero
  (for the nonnegative values arising here: the floor).
* Promise rejection / thrown errors are modelled with `Except JsError`.
  A JavaScript `Error` is `JsError`: a message and an optional cause.
  `new Error(message, options)` attaches a cause only when `options` has a
  `cause` property (`jsErrorCtor`).
* The unbounded recursion of `compressImage` is modelled with explicit fuel
  (`none` = the recursion has not terminated within the given fuel).
* Alongside its result, each function returns the number of encode
  operations (`canvas.toBlob` invocations) it performed, so that claims of
  the form "no encoding is attempted" are expressible.
-/

/-- A JavaScript `Error` object: its message together with its chain of
causes, flattened into a list of messages (`[]` = the Error was constructed
without a cause and has no `cause` property; `m :: rest` = its cause is the
Error with message `m` and cause chain `rest`).  This list representation is
isomorphic to the recursive "message + optional cause Error" shape and keeps
equality decidable. -/
structure JsError where
  message : String
  causeChain : List String
deriving DecidableEq, Repr

/-- Build a `JsError` with no cause (the plain `new Error(message)`). -/
def JsError.plain (message : String) : JsError :=
  ⟨message, []⟩

/-- The `cause` property of an Error (`none` when the Error was constructed
without one, in which case it has no `cause` property at all). -/
def JsError.cause : JsError → Option JsError
  | ⟨_, []⟩ => none
  | ⟨_, m :: rest⟩ => some ⟨m, rest⟩

/-- Semantics of the JavaScript `Error` constructor `new Error(message, options)`:
per ECMA-262 `InstallErrorCause`, a cause is attached exactly when the second
argument is an object with a `cause` property.  When the second argument is
itself an Error (as in `compress`'s catch block), the only `cause` property it
can have is its own cause; an Error constructed without a cause has none, so
nothing is attached. -/
def jsErrorCtor (message : String) (options : Option JsError) : JsError :=
  match options.bind JsError.cause with
  | none => ⟨message, []⟩
  | some c => ⟨message, c.message :: c.causeChain⟩

/-- A browser `File`: name, lastModified timestamp, declared media type and
byte size, together with the intrinsic pixel dimensions and an abstract
content identifier of the image its bytes encode. -/
structure JSFile where
  name : String
  lastModified : Int
  type : String
  size : ℕ
  width : ℕ
  height : ℕ
  content : ℕ
deriving DecidableEq, Repr

/-- The browser's decode/render/encode primitives, abstracted.
`encSize c w h t q` / `encContent c w h t q` are the byte size and content of
the blob `canvas.toBlob` produces from source content `c` rendered on a
`w`×`h` canvas, encoded to media type `t` at quality `q`. -/
structure Codec where
  decodeOk : ℕ → Bool
  encSize : ℕ → ℕ → ℕ → String → ℚ → ℕ
  encContent : ℕ → ℕ → ℕ → String → ℚ → ℕ

/-- WebIDL unsigned-long conversion performed by the `canvas.width` /
`canvas.height` setters: truncation toward zero, i.e. the floor for the
nonnegative values arising here. -/
def canvasDim (x : ℚ) : ℕ := x.floor.toNat

/-- The options object of `FileHelper.resampleImage`:
`{ scale: number; quality?: number; type?: string }`. -/
structure ResampleOptions where
  scale : ℚ
  quality : Option ℚ := none
  type : Option String := none
deriving DecidableEq, Repr

namespace FileHelper

/-- `FileHelper.isValidSize`: `file.size < maxSize`. -/
def isValidSize (file : JSFile) (maxSize : ℚ) : Bool :=
  decide ((file.size : ℚ) < maxSize)

/-- `FileHelper.resampleImage`: destructure the options with defaults
`quality = 1`, `type = "image/jpeg"`; decode the file (`blobToImage` rejects
with "blobToImage(): blob is illegal" on undecodable bytes); set the canvas
dimensions to `image.width * scale` / `image.height * scale` (WebIDL
truncation); draw and encode via `canvas.toBlob`, wrapping the blob in a new
`File` carrying the original name and lastModified.  On a zero-dimension
canvas `toBlob` yields `null` and `new File([null], ...)` produces the 4-byte
text "null" with empty type.  The second component counts `toBlob`
invocations. -/
def resampleImage (codec : Codec) (file : JSFile) (options : ResampleOptions) :
    Except JsError JSFile × ℕ :=
  let scale := options.scale
  let quality := options.quality.getD 1
  let type := options.type.getD "image/jpeg"
  if codec.decodeOk file.content then
    let w := canvasDim ((file.width : ℚ) * scale)
    let h := canvasDim ((file.height : ℚ) * scale)
    if w = 0 ∨ h = 0 then
      (.ok { name := file.name, lastModified := file.lastModified,
             type := "", size := 4, width := w, height := h, content := 0 }, 1)
    else
      (.ok { name := file.name, lastModified := file.lastModified,
             type := type,
             size := codec.encSize file.content w h type quality,
             width := w, height := h,
             content := codec.encContent file.content w h type quality }, 1)
  else
    (.error (JsError.plain "blobToImage(): blob is illegal"), 0)

/-- The quality for the next `compressImage` recursion step:
`quality - min(0.025 / ratio, 0.1)` with `ratio = maxSize / compressed.size`
(the exact expression of file-helper.ts lines 103-110). -/
def nextQuality (maxSize : ℚ) (size : ℕ) (quality : ℚ) : ℚ :=
  quality - min (0.025 / (maxSize / (size : ℚ))) 0.1

/-- `FileHelper.compressImage`: defaults `quality = 1`, `minQuality = 0.1`
(resolved by the caller of this embedding); throw "Unable to compress" when
`quality < minQuality || quality <= 0`; otherwise re-encode at `scale = 1`
with the current quality, return the candidate if it fits, else recurse at
`nextQuality`.  The ℕ fuel bounds the recursion depth (`none` = the recursion
did not terminate within the fuel); the ℕ in the result counts `toBlob`
invocations. -/
def compressImage (codec : Codec) (file : JSFile) (maxSize quality minQuality : ℚ) :
    ℕ → Option (Except JsError JSFile × ℕ)
  | 0 => none
  | fuel + 1 =>
    if quality < minQuality ∨ quality ≤ 0 then
      some (.error (JsError.plain "Unable to compress"), 0)
    else
      match resampleImage codec file { scale := 1, quality := some quality } with
      | (.error e, n) => some (.error e, n)
      | (.ok compressed, n) =>
        if isValidSize compressed maxSize then
          some (.ok compressed, n)
        else
          match compressImage codec file maxSize
              (nextQuality maxSize compressed.size quality) minQuality fuel with
          | none => none
          | some (r, m) => some (r, n + m)

end FileHelper

/-- The process-wide non-compressible-type list of the orchestrator. -/
def nonCompressableFileTypes : List String := ["application/pdf"]

/-- The orchestrator `compress` (src/unnamed/part_000): inside a try block,
throw "Unable to compress file" when the file is over budget and of a
non-compressible type; otherwise run the pre-pass
`FileHelper.resampleImage(file, { scale: 0.9 })`, return it if it fits, else
fall through to `FileHelper.compressImage(compressedDocument, { maxSize })`
(defaults `quality = 1`, `minQuality = 0.1`).  The catch block rethrows
`new Error("Unable to compress file due to error:", error)`.  Fuel and
encode count as in `compressImage`. -/
def compress (codec : Codec) (file : JSFile) (maxSize : ℚ) (fuel : ℕ) :
    Option (Except JsError JSFile × ℕ) :=
  let inner : Option (Except JsError JSFile × ℕ) :=
    if ¬ FileHelper.isValidSize file maxSize ∧ nonCompressableFileTypes.contains file.type then
      some (.error (JsError.plain "Unable to compress file"), 0)
    else
      match FileHelper.resampleImage codec file { scale := 0.9 } with
      | (.error e, n) => some (.error e, n)
      | (.ok compressedDocument, n) =>
        if FileHelper.isValidSize compressedDocument maxSize then
          some (.ok compressedDocument, n)
        else
          match FileHelper.compressImage codec compressedDocument maxSize 1 0.1 fuel with
          | none => none
          | some (r, m) => some (r, n + m)
  match inner with
  | none => none
  | some (.ok f, n) => some (.ok f, n)
  | some (.error e, n) =>
    some (.error (jsErrorCtor "Unable to compress file due to error:" (some e)), n)

/-- The byte size of the candidate a `compressImage` iteration encodes at
quality `q`: the size component of
`resampleImage(file, { scale: 1, quality: q })` (0 when the decode step
fails, in which case the run stops with an error anyway). -/
def sizeAt (codec : Codec) (file : JSFile) (q : ℚ) : ℕ :=
  match (FileHelper.resampleImage codec file { scale := 1, quality := some q }).1 with
  | .ok g => g.size
  | .error _ => 0

/-- The sequence of quality values a `compressImage` run visits while its
candidates stay over budget: `q 0 = startQuality` and
`q (i+1) = nextQuality maxSize (sizeAt q i) (q i)`, the exact recursion of
`compressImage`. -/
def qualitySeq (codec : Codec) (file : JSFile) (maxSize q0 : ℚ) : ℕ → ℚ
  | 0 => q0
  | i + 1 =>
    FileHelper.nextQuality maxSize
      (sizeAt codec file (qualitySeq codec file maxSize q0 i))
      (qualitySeq codec file maxSize q0 i)

/-! ## Concrete fixtures for witnesses and counterexamples -/

/-- A codec whose encoder always produces `sz` bytes (content 0) and which
decodes every content. -/
def constCodec (sz : ℕ) : Codec :=
  { decodeOk := fun _ => true
    encSize := fun _ _ _ _ _ => sz
    encContent := fun _ _ _ _ _ => 0 }

/-- A codec whose decode step rejects every content (every file is an
illegal blob for `blobToImage`). -/
def badCodec : Codec :=
  { decodeOk := fun _ => false
    encSize := fun _ _ _ _ _ => 0
    encContent := fun _ _ _ _ _ => 0 }

/-- A 20×20 PNG of 100 bytes. -/
def pngSmall : JSFile :=
  { name := "photo.png", lastModified := 17, type := "image/png",
    size := 100, width := 20, height := 20, content := 5 }

/-- A 15×15 PNG of 100 bytes (dimension counterexample input). -/
def png15 : JSFile :=
  { name := "a.png", lastModified := 0, type := "image/png",
    size := 100, width := 15, height := 15, content := 1 }

/-- A 2,000,000-byte PDF (the spec's unsupported-compression scenario). -/
def pdfBig : JSFile :=
  { name := "doc.pdf", lastModified := 3, type := "application/pdf",
    size := 2000000, width := 0, height := 0, content := 9 }

/-! ## Helper lemmas -/

/-- `isValidSize` is the strict size comparison. -/
theorem isValidSize_iff {file : JSFile} {maxSize : ℚ} :
    FileHelper.isValidSize file maxSize = true ↔ (file.size : ℚ) < maxSize := by
  simp [FileHelper.isValidSize]

/-- One-step unfolding of `compressImage` at nonzero fuel. -/
theorem compressImage_succ (codec : Codec) (file : JSFile)
    (maxSize q minQ : ℚ) (fuel : ℕ) :
    FileHelper.compressImage codec file maxSize q minQ (fuel + 1) =
      if q < minQ ∨ q ≤ 0 then
        some (.error (JsError.plain "Unable to compress"), 0)
      else
        match FileHelper.resampleImage codec file { scale := 1, quality := some q } with
        | (.error e, n) => some (.error e, n)
        | (.ok compressed, n) =>
          if FileHelper.isValidSize compressed maxSize then
            some (.ok compressed, n)
          else
            match FileHelper.compressImage codec file maxSize
                (FileHelper.nextQuality maxSize compressed.size q) minQ fuel with
            | none => none
            | some (r, m) => some (r, n + m) := rfl

/-- A successful `resampleImage` keeps the input's name and lastModified. -/
theorem resample_ok_meta {codec : Codec} {file : JSFile} {options : ResampleOptions}
    {g : JSFile} {n : ℕ}
    (h : FileHelper.resampleImage codec file options = (.ok g, n)) :
    g.name = file.name ∧ g.lastModified = file.lastModified := by
  rw [FileHelper.resampleImage] at h
  dsimp only at h
  split_ifs at h with hdec hzero <;>
    simp only [Prod.mk.injEq, Except.ok.injEq, reduceCtorEq, false_and] at h
  · obtain ⟨rfl, -⟩ := h
    exact ⟨rfl, rfl⟩
  · obtain ⟨rfl, -⟩ := h
    exact ⟨rfl, rfl⟩

/-! ## C1 -/

/-- C1 counterexample: for the 20×20 PNG source `pngSmall`, the orchestrator's
pre-pass result (returned directly, since it fits the budget) has media type
"image/jpeg", not the source's own type "image/png": `compress` calls
`resampleImage` with only `{ scale: 0.9 }`, so the target type defaults to
"image/jpeg" rather than `source.type`. -/
theorem compress_prepass_type_counterexample :
    pngSmall.type = "image/png" ∧
    compress (constCodec 50) pngSmall 1000000 5 =
      some (.ok { name := "photo.png", lastModified := 17, type := "image/jpeg",
                  size := 50, width := 18, height := 18, content := 0 }, 1) := by
  constructor
  · rfl
  · with_unfolding_all rfl

/-- C1 (amended): the dimensional pre-pass invokes the Rescaler as
`resampleImage(source, { scale: 0.9 })`, whose destructuring defaults resolve
the quality to 1 and the target media type to "image/jpeg" — not to the
source's own media type.  Hence any pre-pass result rendered at nonzero
dimensions carries media type "image/jpeg" regardless of the source's type. -/
theorem compress_prepass_type (codec : Codec) (file : JSFile) (g : JSFile) (n : ℕ)
    (h : FileHelper.resampleImage codec file { scale := 0.9 } = (.ok g, n))
    (hw : g.width ≠ 0) (hh : g.height ≠ 0) :
    g.type = "image/jpeg" := by
  rw [FileHelper.resampleImage] at h
  dsimp only at h
  split_ifs at h with hdec hzero <;>
    simp only [Prod.mk.injEq, Except.ok.injEq, reduceCtorEq, false_and] at h
  · obtain ⟨rfl, -⟩ := h
    exact absurd hzero (by simpa using ⟨hw, hh⟩)
  · obtain ⟨rfl, -⟩ := h
    rfl

/-- C1 witness: the amended theorem applied to the concrete run of
`compress_prepass_type_counterexample`. -/
theorem compress_prepass_type_witness :
    ({ name := "photo.png", lastModified := 17, type := "image/jpeg",
       size := 50, width := 18, height := 18, content := 0 } : JSFile).type
      = "image/jpeg" :=
  compress_prepass_type (constCodec 50) pngSmall _ 1
    (by with_unfolding_all rfl) (by decide) (by decide)

/-! ## C2 -/

/-- Any file returned by `compressImage` passed the strict size check. -/
theorem compressImage_ok_size (codec : Codec) (file : JSFile)
    (maxSize minQuality : ℚ) :
    ∀ (fuel : ℕ) (quality : ℚ) (g : JSFile) (n : ℕ),
      FileHelper.compressImage codec file maxSize quality minQuality fuel
        = some (.ok g, n) →
      (g.size : ℚ) < maxSize := by
  intro fuel
  induction fuel with
  | zero => intro q g n h; exact Option.noConfusion h
  | succ fuel ih =>
    intro q g n h
    rw [compressImage_succ] at h
    by_cases hterm : q < minQuality ∨ q ≤ 0
    · rw [if_pos hterm] at h
      simp at h
    · rw [if_neg hterm] at h
      rcases hres : FileHelper.resampleImage codec file { scale := 1, quality := some q }
        with ⟨res, n1⟩
      rw [hres] at h
      cases res with
      | error e => simp at h
      | ok compressed =>
        dsimp only at h
        by_cases hv : FileHelper.isValidSize compressed maxSize = true
        · rw [if_pos hv] at h
          simp only [Option.some.injEq, Prod.mk.injEq, Except.ok.injEq] at h
          obtain ⟨rfl, -⟩ := h
          exact isValidSize_iff.mp hv
        · rw [if_neg hv] at h
          rcases hrec : FileHelper.compressImage codec file maxSize
              (FileHelper.nextQuality maxSize compressed.size q) minQuality fuel
            with _ | ⟨r, m⟩
          · rw [hrec] at h
            simp at h
          · rw [hrec] at h
            dsimp only at h
            simp only [Option.some.injEq, Prod.mk.injEq] at h
            obtain ⟨rfl, -⟩ := h
            exact ih _ g m hrec

/-- C2 counterexample: two concrete runs refuting the claim as stated.
First, for the 100-byte source `pngSmall` under the budget 1000, `compress`
with an encoder that emits 500 bytes returns a 500-byte result — larger than
the source, because the scale-0.9 pre-pass re-encodes unconditionally.
Second, for the same under-budget source with undecodable bytes
(`badCodec`), `compress` fails instead of returning a result. -/
theorem compress_under_budget_counterexample :
    (pngSmall.size = 100 ∧ ((pngSmall.size : ℚ) < 1000) ∧
      compress (constCodec 500) pngSmall 1000 5 =
        some (.ok { name := "photo.png", lastModified := 17, type := "image/jpeg",
                    size := 500, width := 18, height := 18, content := 0 }, 1) ∧
      ¬ (500 : ℕ) ≤ 100) ∧
    compress badCodec pngSmall 1000 5 =
      some (.error ⟨"Unable to compress file due to error:", []⟩, 0) := by
  refine ⟨⟨rfl, by norm_num [pngSmall], ?_, by decide⟩, ?_⟩
  · with_unfolding_all rfl
  · with_unfolding_all rfl

/-- C2 (amended): whenever `compress` returns a result, that result's byte
size is strictly under `maxSize` (hence ≤ maxSizeBytes).  The further parts
of the original claim fail: an under-budget source can still fail (its bytes
may not decode), and the returned result can be larger than an under-budget
original, because the pre-pass re-encodes unconditionally. -/
theorem compress_ok_size (codec : Codec) (file : JSFile) (maxSize : ℚ)
    (fuel : ℕ) (g : JSFile) (n : ℕ)
    (h : compress codec file maxSize fuel = some (.ok g, n)) :
    (g.size : ℚ) < maxSize := by
  rw [compress] at h
  split_ifs at h with hpdf
  · simp at h
  · rcases hres : FileHelper.resampleImage codec file { scale := 0.9 } with ⟨res, n1⟩
    rw [hres] at h
    cases res with
    | error e => simp at h
    | ok doc =>
      dsimp only at h
      by_cases hv : FileHelper.isValidSize doc maxSize = true
      · rw [if_pos hv] at h
        simp only [Option.some.injEq, Prod.mk.injEq, Except.ok.injEq] at h
        obtain ⟨rfl, -⟩ := h
        exact isValidSize_iff.mp hv
      · rw [if_neg hv] at h
        rcases hrec : FileHelper.compressImage codec doc maxSize 1 0.1 fuel
          with _ | ⟨r, m⟩
        · rw [hrec] at h; simp at h
        · rw [hrec] at h
          dsimp only at h
          cases r with
          | error e => simp at h
          | ok f =>
            simp only [Option.some.injEq, Prod.mk.injEq, Except.ok.injEq] at h
            obtain ⟨rfl, -⟩ := h
            exact compressImage_ok_size codec doc maxSize 0.1 fuel 1 _ m hrec

/-- C2 witness: the amended theorem applied to the concrete run of
`compress_under_budget_counterexample`. -/
theorem compress_ok_size_witness :
    ((({ name := "photo.png", lastModified := 17, type := "image/jpeg",
         size := 500, width := 18, height := 18, content := 0 } : JSFile).size : ℚ)
      < 1000) :=
  compress_ok_size (constCodec 500) pngSmall 1000 5 _ 1
    (by with_unfolding_all rfl)

/-! ## C3 -/

/-- C3 (code bug): on a failing input (the spec's over-budget PDF scenario),
`compress` does signal exactly one umbrella error, but the wrapped error
carries no cause: the catch block runs
`new Error("Unable to compress file due to error:", error)`, which passes the
caught error in the options position of the Error constructor, so no `cause`
property is installed and the original error ("Unable to compress file" here)
is discarded entirely.  The second conjunct shows the constructor semantics
directly: wrapping a cause-less error attaches nothing. -/
theorem compress_error_cause_dropped :
    (compress (constCodec 0) pdfBig 500000 5 =
        some (.error ⟨"Unable to compress file due to error:", []⟩, 0) ∧
      JsError.cause ⟨"Unable to compress file due to error:", []⟩ = none) ∧
    jsErrorCtor "Unable to compress file due to error:"
        (some (JsError.plain "Unable to compress file")) =
      ⟨"Unable to compress file due to error:", []⟩ := by
  exact ⟨⟨by with_unfolding_all rfl, rfl⟩, rfl⟩

/-! ## C8 -/

/-- C8: for any source whose media type is "application/pdf" (the configured
non-compressible set) and whose size is not under `maxSize`, `compress`
signals an error at once — the returned encode count 0 certifies that no
rescale or encode step was attempted. -/
theorem compress_pdf_over_budget (codec : Codec) (file : JSFile)
    (maxSize : ℚ) (fuel : ℕ)
    (htype : file.type = "application/pdf")
    (hsize : ¬ ((file.size : ℚ) < maxSize)) :
    compress codec file maxSize fuel =
      some (.error ⟨"Unable to compress file due to error:", []⟩, 0) := by
  rw [compress]
  rw [if_pos]
  · rfl
  · constructor
    · simp [isValidSize_iff, hsize]
    · simp [nonCompressableFileTypes, htype]

/-- C8 witness: the spec's scenario — a 2,000,000-byte PDF against a 500,000
byte budget — signals the wrapped error with no encode attempted. -/
theorem compress_pdf_over_budget_witness :
    compress (constCodec 0) pdfBig 500000 5 =
      some (.error ⟨"Unable to compress file due to error:", []⟩, 0) :=
  compress_pdf_over_budget (constCodec 0) pdfBig 500000 5 rfl (by norm_num [pdfBig])

/-! ## C7 -/

/-- C7: whenever `compressImage` is entered with `quality < minQuality` or
`quality ≤ 0`, it throws "Unable to compress" at once, with encode count 0 —
no encoding is performed on that call, whatever the file (in particular even
when the file already fits the budget, since the terminal-fail check precedes
the encode step). -/
theorem compressImage_terminal_fail (codec : Codec) (file : JSFile)
    (maxSize quality minQuality : ℚ) (fuel : ℕ)
    (h : quality < minQuality ∨ quality ≤ 0) :
    FileHelper.compressImage codec file maxSize quality minQuality (fuel + 1) =
      some (.error (JsError.plain "Unable to compress"), 0) := by
  rw [compressImage_succ, if_pos h]

/-- C7 witness: quality 0.05 is below the floor 0.1, so the search throws
without encoding even though `pngSmall` (100 bytes) already fits the
1000-byte budget. -/
theorem compressImage_terminal_fail_witness :
    FileHelper.isValidSize pngSmall 1000 = true ∧
    FileHelper.compressImage (constCodec 0) pngSmall 1000 0.05 0.1 (4 + 1) =
      some (.error (JsError.plain "Unable to compress"), 0) :=
  ⟨by with_unfolding_all rfl,
   compressImage_terminal_fail (constCodec 0) pngSmall 1000 0.05 0.1 4
     (Or.inl (by norm_num))⟩

/-! ## C6 -/

/-- C6: on an iteration that passes the terminal-fail check, encodes a
candidate `g` (with `n` encode operations) and finds it over budget, the
search continues exactly at
`nextQuality = quality - min(0.025 / (maxSize / g.size), 0.1)`, restarting
from the terminal-fail check (the recursive call) with that quality. -/
theorem compressImage_step (codec : Codec) (file : JSFile)
    (maxSize quality minQuality : ℚ) (fuel n : ℕ) (g : JSFile)
    (hterm : ¬ (quality < minQuality ∨ quality ≤ 0))
    (hres : FileHelper.resampleImage codec file { scale := 1, quality := some quality }
      = (.ok g, n))
    (hbig : ¬ FileHelper.isValidSize g maxSize = true) :
    FileHelper.compressImage codec file maxSize quality minQuality (fuel + 1) =
      match FileHelper.compressImage codec file maxSize
          (FileHelper.nextQuality maxSize g.size quality) minQuality fuel with
      | none => none
      | some (r, m) => some (r, n + m) := by
  rw [compressImage_succ, if_neg hterm, hres]
  dsimp only
  rw [if_neg hbig]

/-- C6 witness: with a 2000-byte candidate against a 1000-byte budget,
`ratio = 1/2` and the next quality is `1 - min(0.05, 0.1) = 0.95`. -/
theorem compressImage_step_witness :
    FileHelper.nextQuality 1000
        ({ name := "photo.png", lastModified := 17, type := "image/jpeg",
           size := 2000, width := 20, height := 20, content := 0 } : JSFile).size 1
      = 0.95 ∧
    FileHelper.compressImage (constCodec 2000) pngSmall 1000 1 0.1 (2 + 1) =
      match FileHelper.compressImage (constCodec 2000) pngSmall 1000
          (FileHelper.nextQuality 1000
            ({ name := "photo.png", lastModified := 17, type := "image/jpeg",
               size := 2000, width := 20, height := 20, content := 0 } : JSFile).size 1)
          0.1 2 with
      | none => none
      | some (r, m) => some (r, 1 + m) :=
  ⟨by with_unfolding_all rfl,
   compressImage_step (constCodec 2000) pngSmall 1000 1 0.1 2 1 _
     (by norm_num) (by with_unfolding_all rfl) (by with_unfolding_all decide)⟩

/-! ## C5 and C9 arithmetic -/

/-- When the candidate is at least as large as the (positive) budget, the
ratio lies in (0, 1], so the decrement `min(0.025 / ratio, 0.1)` is at least
0.025 = 1/40. -/
theorem nextQuality_le {maxSize : ℚ} {size : ℕ} (q : ℚ)
    (hmax : 0 < maxSize) (hsz : maxSize ≤ (size : ℚ)) :
    FileHelper.nextQuality maxSize size q ≤ q - 1/40 := by
  have hs : (0 : ℚ) < (size : ℚ) := lt_of_lt_of_le hmax hsz
  have hr : 0 < maxSize / (size : ℚ) := div_pos hmax hs
  have hr1 : maxSize / (size : ℚ) ≤ 1 := (div_le_one hs).mpr hsz
  have h1 : (1/40 : ℚ) ≤ 0.025 / (maxSize / (size : ℚ)) := by
    rw [le_div_iff hr]
    nlinarith
  have h2 : (1/40 : ℚ) ≤ min (0.025 / (maxSize / (size : ℚ))) 0.1 :=
    le_min h1 (by norm_num)
  rw [FileHelper.nextQuality]
  linarith

/-- The termination measure `⌈q * 40⌉₊` drops strictly across a decrement of
at least 1/40, as long as the current quality is positive. -/
theorem ceil_measure_lt {q q' : ℚ} (hq : 0 < q) (h : q' ≤ q - 1/40) :
    ⌈q' * 40⌉₊ < ⌈q * 40⌉₊ := by
  have h0 : 0 < ⌈q * 40⌉₊ := Nat.ceil_pos.mpr (by positivity)
  have h1 : ⌈q' * 40⌉₊ ≤ ⌈q * 40⌉₊ - 1 := by
    rw [Nat.ceil_le, Nat.cast_sub h0, Nat.cast_one]
    have h2 : q * 40 ≤ (⌈q * 40⌉₊ : ℚ) := Nat.le_ceil _
    nlinarith
  omega

/-- With fuel exceeding the measure `⌈q * 40⌉₊`, `compressImage` cannot run
out of fuel: every quality-search run completes (with a result or an error)
in a bounded number of steps, for any positive budget. -/
theorem compressImage_no_fuel_exhaustion (codec : Codec) (file : JSFile)
    (maxSize minQ : ℚ) (hmax : 0 < maxSize) :
    ∀ (fuel : ℕ) (q : ℚ), ⌈q * 40⌉₊ < fuel →
      FileHelper.compressImage codec file maxSize q minQ fuel ≠ none := by
  intro fuel
  induction fuel with
  | zero => intro q h; omega
  | succ fuel ih =>
    intro q hq
    rw [compressImage_succ]
    by_cases hterm : q < minQ ∨ q ≤ 0
    · rw [if_pos hterm]; simp
    · rw [if_neg hterm]
      rcases hres : FileHelper.resampleImage codec file { scale := 1, quality := some q }
        with ⟨res, n1⟩
      cases res with
      | error e => simp
      | ok compressed =>
        dsimp only
        by_cases hv : FileHelper.isValidSize compressed maxSize = true
        · rw [if_pos hv]; simp
        · rw [if_neg hv]
          push_neg at hterm
          have hqpos : 0 < q := hterm.2
          have hsz : maxSize ≤ (compressed.size : ℚ) :=
            not_lt.mp fun hlt => hv (isValidSize_iff.mpr hlt)
          have hnext := nextQuality_le q hmax hsz
          have hlt := ceil_measure_lt hqpos hnext
          have hrec2 := ih (FileHelper.nextQuality maxSize compressed.size q) (by omega)
          rcases hrec : FileHelper.compressImage codec file maxSize
              (FileHelper.nextQuality maxSize compressed.size q) minQ fuel
            with _ | ⟨r, m⟩
          · exact absurd hrec hrec2
          · simp

/-! ## C5 -/

/-- C5: for every positive budget and positive quality floor, a quality
search started at any quality terminates — it returns a result or signals the
exhaustion error — within `⌈startQuality * 40⌉₊ + 1` iterations, because each
failed iteration lowers the quality by at least 0.025. -/
theorem compressImage_terminates (codec : Codec) (file : JSFile)
    (maxSize q minQ : ℚ) (hmax : 0 < maxSize) (hminq : 0 < minQ) :
    ∃ r, FileHelper.compressImage codec file maxSize q minQ (⌈q * 40⌉₊ + 1)
      = some r := by
  have h := compressImage_no_fuel_exhaustion codec file maxSize minQ hmax
    (⌈q * 40⌉₊ + 1) q (by omega)
  exact Option.ne_none_iff_exists'.mp h

/-- C5 witness: an encoder pinned at 2000 bytes against a 1000-byte budget
can never fit, and the search still terminates from quality 1 within 41
iterations. -/
theorem compressImage_terminates_witness :
    (0 : ℚ) < 1000 ∧ (0 : ℚ) < 0.1 ∧
    ∃ r, FileHelper.compressImage (constCodec 2000) pngSmall 1000 1 0.1
      (⌈(1 : ℚ) * 40⌉₊ + 1) = some r :=
  ⟨by norm_num, by norm_num,
   compressImage_terminates (constCodec 2000) pngSmall 1000 1 0.1
     (by norm_num) (by norm_num)⟩

/-! ## C9 -/

/-- C9: across the iterations of one quality-search run — while every
candidate encoded so far was over budget, which is what keeps the run
iterating — the visited quality values are strictly decreasing: later
iterations have strictly smaller quality, so no quality value is ever
visited twice. -/
theorem qualitySeq_strict_anti (codec : Codec) (file : JSFile)
    (maxSize q0 : ℚ) (hmax : 0 < maxSize) :
    ∀ i j, i < j →
      (∀ k, k < j →
        maxSize ≤ (sizeAt codec file (qualitySeq codec file maxSize q0 k) : ℚ)) →
      qualitySeq codec file maxSize q0 j < qualitySeq codec file maxSize q0 i := by
  intro i j
  induction j with
  | zero => intro h _; exact absurd h (Nat.not_lt_zero i)
  | succ j ih =>
    intro hij hk
    have hstep : qualitySeq codec file maxSize q0 (j + 1) ≤
        qualitySeq codec file maxSize q0 j - 1/40 := by
      rw [qualitySeq]
      exact nextQuality_le _ hmax (hk j (Nat.lt_succ_self j))
    rcases Nat.lt_succ_iff_lt_or_eq.mp hij with h | h
    · have := ih h (fun k hk2 => hk k (Nat.lt_succ_of_lt hk2))
      linarith
    · subst h
      linarith

/-- C9 witness: with the 2000-byte encoder against the 1000-byte budget, the
second visited quality (0.95) is strictly below the first (1). -/
theorem qualitySeq_strict_anti_witness :
    qualitySeq (constCodec 2000) pngSmall 1000 1 1 <
      qualitySeq (constCodec 2000) pngSmall 1000 1 0 :=
  qualitySeq_strict_anti (constCodec 2000) pngSmall 1000 1 (by norm_num) 0 1
    (by omega)
    (fun k hk => by
      have hk0 : k = 0 := Nat.lt_one_iff.mp hk
      subst hk0
      have h : sizeAt (constCodec 2000) pngSmall
          (qualitySeq (constCodec 2000) pngSmall 1000 1 0) = 2000 := by
        with_unfolding_all rfl
      rw [h]; norm_num)

/-! ## C4 -/

/-- The canvas-dimension conversion is the identity on whole numbers. -/
theorem canvasDim_natCast (m : ℕ) : canvasDim (m : ℚ) = m := by
  rw [canvasDim, Rat.floor_def']
  simp

/-- C4 counterexample: a 15×15 source rescaled at 1/2 renders on a 7×7
canvas — the width/height setters truncate `15 * 0.5 = 7.5` to 7 — whereas
the claimed formula `max(1, round(width * scale))` predicts 8. -/
theorem resample_dims_counterexample :
    FileHelper.resampleImage (constCodec 50) png15 { scale := 1/2 } =
      (.ok { name := "a.png", lastModified := 0, type := "image/jpeg",
             size := 50, width := 7, height := 7, content := 0 }, 1) ∧
    max 1 (round ((png15.width : ℚ) * (1/2))).toNat = 8 ∧ (7 : ℕ) ≠ 8 := by
  refine ⟨by with_unfolding_all rfl, ?_, by decide⟩
  have h : round ((png15.width : ℚ) * (1/2)) = 8 := by
    norm_num [png15, round_eq]
  rw [h]
  rfl

/-- C4 (amended): the Rescaler renders at the truncated dimensions
`trunc(originalWidth * scale)` × `trunc(originalHeight * scale)` (the WebIDL
unsigned-long conversion of the canvas setters; no rounding and no 1-pixel
minimum — a dimension can truncate to 0).  The second half of the claim
stands: with `scale = 1` the output dimensions equal the input's, for any
quality. -/
theorem resample_dims (codec : Codec) (file : JSFile)
    (options : ResampleOptions) (g : JSFile) (n : ℕ)
    (h : FileHelper.resampleImage codec file options = (.ok g, n)) :
    g.width = canvasDim ((file.width : ℚ) * options.scale) ∧
    g.height = canvasDim ((file.height : ℚ) * options.scale) ∧
    (options.scale = 1 → g.width = file.width ∧ g.height = file.height) := by
  have hdim : ∀ m : ℕ, canvasDim ((m : ℚ) * 1) = m := fun m => by
    rw [mul_one]; exact canvasDim_natCast m
  rw [FileHelper.resampleImage] at h
  dsimp only at h
  split_ifs at h with hdec hzero <;>
    simp only [Prod.mk.injEq, Except.ok.injEq, reduceCtorEq, false_and] at h
  · obtain ⟨rfl, -⟩ := h
    refine ⟨rfl, rfl, fun hs => ?_⟩
    rw [hs]
    exact ⟨hdim _, hdim _⟩
  · obtain ⟨rfl, -⟩ := h
    refine ⟨rfl, rfl, fun hs => ?_⟩
    rw [hs]
    exact ⟨hdim _, hdim _⟩

/-- C4 witness: the amended theorem applied to the concrete run of
`resample_dims_counterexample`: 7 = trunc(15 * 1/2). -/
theorem resample_dims_witness :
    ({ name := "a.png", lastModified := 0, type := "image/jpeg",
       size := 50, width := 7, height := 7, content := 0 } : JSFile).width
      = canvasDim ((png15.width : ℚ) * (1/2)) :=
  (resample_dims (constCodec 50) png15 { scale := 1/2 } _ 1
    (by with_unfolding_all rfl)).1

/-! ## C10 -/

/-- Any file returned by `compressImage` keeps the name and lastModified of
the file it compresses. -/
theorem compressImage_ok_meta (codec : Codec) (file : JSFile)
    (maxSize minQuality : ℚ) :
    ∀ (fuel : ℕ) (quality : ℚ) (g : JSFile) (n : ℕ),
      FileHelper.compressImage codec file maxSize quality minQuality fuel
        = some (.ok g, n) →
      g.name = file.name ∧ g.lastModified = file.lastModified := by
  intro fuel
  induction fuel with
  | zero => intro q g n h; exact Option.noConfusion h
  | succ fuel ih =>
    intro q g n h
    rw [compressImage_succ] at h
    by_cases hterm : q < minQuality ∨ q ≤ 0
    · rw [if_pos hterm] at h
      simp at h
    · rw [if_neg hterm] at h
      rcases hres : FileHelper.resampleImage codec file { scale := 1, quality := some q }
        with ⟨res, n1⟩
      rw [hres] at h
      cases res with
      | error e => simp at h
      | ok compressed =>
        dsimp only at h
        by_cases hv : FileHelper.isValidSize compressed maxSize = true
        · rw [if_pos hv] at h
          simp only [Option.some.injEq, Prod.mk.injEq, Except.ok.injEq] at h
          obtain ⟨rfl, -⟩ := h
          exact resample_ok_meta hres
        · rw [if_neg hv] at h
          rcases hrec : FileHelper.compressImage codec file maxSize
              (FileHelper.nextQuality maxSize compressed.size q) minQuality fuel
            with _ | ⟨r, m⟩
          · rw [hrec] at h
            simp at h
          · rw [hrec] at h
            dsimp only at h
            simp only [Option.some.injEq, Prod.mk.injEq] at h
            obtain ⟨rfl, -⟩ := h
            exact ih _ g m hrec

/-- C10: every successful result of `resampleImage`, `compressImage` and
`compress` carries the same name and the same lastModified timestamp as the
input file (only the bytes and the media type may change): `resampleImage`
copies `file.name` and `file.lastModified` into the new `File`, and the other
two only return files produced by `resampleImage` from the input. -/
theorem results_preserve_name_lastModified (codec : Codec) (file : JSFile) :
    (∀ (options : ResampleOptions) (g : JSFile) (n : ℕ),
      FileHelper.resampleImage codec file options = (.ok g, n) →
      g.name = file.name ∧ g.lastModified = file.lastModified) ∧
    (∀ (maxSize quality minQuality : ℚ) (fuel : ℕ) (g : JSFile) (n : ℕ),
      FileHelper.compressImage codec file maxSize quality minQuality fuel
        = some (.ok g, n) →
      g.name = file.name ∧ g.lastModified = file.lastModified) ∧
    (∀ (maxSize : ℚ) (fuel : ℕ) (g : JSFile) (n : ℕ),
      compress codec file maxSize fuel = some (.ok g, n) →
      g.name = file.name ∧ g.lastModified = file.lastModified) := by
  refine ⟨fun options g n h => resample_ok_meta h,
    fun maxSize q minQ fuel g n h =>
      compressImage_ok_meta codec file maxSize minQ fuel q g n h,
    fun maxSize fuel g n h => ?_⟩
  rw [compress] at h
  split_ifs at h with hpdf
  · simp at h
  · rcases hres : FileHelper.resampleImage codec file { scale := 0.9 } with ⟨res, n1⟩
    rw [hres] at h
    cases res with
    | error e => simp at h
    | ok doc =>
      dsimp only at h
      have hmeta := resample_ok_meta hres
      by_cases hv : FileHelper.isValidSize doc maxSize = true
      · rw [if_pos hv] at h
        simp only [Option.some.injEq, Prod.mk.injEq, Except.ok.injEq] at h
        obtain ⟨rfl, -⟩ := h
        exact hmeta
      · rw [if_neg hv] at h
        rcases hrec : FileHelper.compressImage codec doc maxSize 1 0.1 fuel
          with _ | ⟨r, m⟩
        · rw [hrec] at h; simp at h
        · rw [hrec] at h
          dsimp only at h
          cases r with
          | error e => simp at h
          | ok f =>
            simp only [Option.some.injEq, Prod.mk.injEq, Except.ok.injEq] at h
            obtain ⟨rfl, -⟩ := h
            have h2 := compressImage_ok_meta codec doc maxSize 0.1 fuel 1 _ m hrec
            exact ⟨h2.1.trans hmeta.1, h2.2.trans hmeta.2⟩

/-- C10 witness: the `compress` part of the theorem applied to a concrete
run: the returned file keeps `pngSmall`'s name and timestamp. -/
theorem results_preserve_name_lastModified_witness :
    ({ name := "photo.png", lastModified := 17, type := "image/jpeg",
       size := 50, width := 18, height := 18, content := 0 } : JSFile).name
        = pngSmall.name ∧
    ({ name := "photo.png", lastModified := 17, type := "image/jpeg",
       size := 50, width := 18, height := 18, content := 0 } : JSFile).lastModified
        = pngSmall.lastModified :=
  (results_preserve_name_lastModified (constCodec 50) pngSmall).2.2 1000000 5 _ 1
    (by with_unfolding_all rfl)
